import Mathlib

/-!
# Verification of the NeuraX session-management logic

Shallow embedding of the Flask application in `src/NeuraX.py`.

* Chat messages are role/content pairs (`Message`).
* The in-memory dict `chat_sessions` is modelled as an association list
  (`Store`) with Python-dict semantics: `storeGet` is `dict.get`,
  `storeSet` is `d[k] = v` (updating in place, appending new keys at the
  end), `storePop` is `dict.pop`.
* The external collaborators (OpenAI completion call, title-generation
  call, `tiktoken` token counting) are modelled by a `ChatEnv` record
  giving their observed results for the request under consideration:
  `chat_with_ai` always returns a string (a reply or inline error text),
  the title call either returns a string or raises (`Option String`),
  and `count_tokens` returns some natural number.
* Python `while` loops that probe for a fresh session name are modelled
  by fuel-bounded recursion that also reports, as a `Bool`, whether the
  loop exited normally (the flag is `true` exactly when the loop's
  condition became false within the given fuel).
* Character classes (`str.lower`, `str.isalpha`, `str.isdigit`,
  `str.split()` whitespace) follow the ASCII semantics of the
  corresponding Python operations.
-/

namespace NeuraX

/-- A chat message, as stored in the session dict:
`{"role": ..., "content": ...}`. -/
structure Message where
  role : String
  content : String
deriving DecidableEq

/-- The `chat_sessions` dict: session id → ordered message list. -/
abbrev Store := List (String × List Message)

/-- `chat_sessions.get(k)` / `chat_sessions[k]`. -/
def storeGet : Store → String → Option (List Message)
  | [], _ => none
  | (k', v) :: rest, k => if k' = k then some v else storeGet rest k

/-- `chat_sessions[k] = v`: replace the binding in place if the key is
present, otherwise append it (Python dicts preserve insertion order). -/
def storeSet : Store → String → List Message → Store
  | [], k, v => [(k, v)]
  | (k', v') :: rest, k, v =>
    if k' = k then (k, v) :: rest else (k', v') :: storeSet rest k v

/-- `chat_sessions.pop(k)` (the removal part; the popped value is read
with `storeGet` separately). -/
def storePop : Store → String → Store
  | [], _ => []
  | (k', v') :: rest, k => if k' = k then rest else (k', v') :: storePop rest k

/-- `list(chat_sessions.keys())`. -/
def storeKeys (st : Store) : List String := st.map Prod.fst

/-- Python truthiness of an optional string: `not x` holds for a missing
field and for the empty string. -/
def isFalsy : Option String → Bool
  | none => true
  | some s => s == ""

/-! ## Character-level operations (ASCII semantics of the Python ones) -/

/-- ASCII whitespace as recognised by Python's `str.split()`. -/
def pyIsSpace (c : Char) : Bool :=
  c == ' ' || c == '\t' || c == '\n' || c == '\r' || c == '\x0b' || c == '\x0c'

/-- The character filter of the title sanitizer
(`x.isalpha() or x == '-'`, NeuraX.py line 116). -/
def keepTitle (c : Char) : Bool := c.isAlpha || c == '-'

/-- The character filter of the rename sanitizer
(`x.isalpha() or x.isdigit() or x == '-'`, NeuraX.py line 174). -/
def keepRename (c : Char) : Bool := c.isAlpha || c.isDigit || c == '-'

/-- `str.split()` on a list of characters: split on runs of whitespace,
discarding empty pieces.  `acc` holds the current word, reversed. -/
def splitWSAux : List Char → List Char → List (List Char)
  | [], acc => if acc.isEmpty then [] else [acc.reverse]
  | c :: cs, acc =>
    if pyIsSpace c then
      if acc.isEmpty then splitWSAux cs [] else acc.reverse :: splitWSAux cs []
    else splitWSAux cs (c :: acc)

/-- `str.split()` (no separator argument). -/
def pySplit (l : List Char) : List (List Char) := splitWSAux l []

/-- `str.strip(c)`: remove all leading and trailing occurrences of `c`. -/
def stripChar (c : Char) (l : List Char) : List Char :=
  ((l.dropWhile (· == c)).reverse.dropWhile (· == c)).reverse

/-- The two-line sanitizer pattern shared by NeuraX.py lines 115–116 and
173–174: lowercase, split on whitespace, join with hyphens, keep only the
characters allowed by `keep`, strip leading/trailing hyphens. -/
def sanitizeCore (keep : Char → Bool) (l : List Char) : List Char :=
  stripChar '-' ((List.intercalate ['-'] (pySplit (l.map Char.toLower))).filter keep)

/-- The sanitizer used on LLM-generated titles in `handle_chat`
(lines 115–116): note its filter drops digits. -/
def sanitizeTitle (s : String) : String := String.mk (sanitizeCore keepTitle s.data)

/-- The sanitizer used in `rename_session_route` (lines 173–174):
its filter keeps digits. -/
def sanitizeRename (s : String) : String := String.mk (sanitizeCore keepRename s.data)

/-! ## Uniqueness probing

The Python loops

```
while unique_name in chat_sessions:            -- handle_chat, line 122
while unique_name in chat_sessions and unique_name != old_session_id:
                                               -- rename_session_route, line 182
```

are modelled with fuel.  The returned `Bool` is `true` iff the loop
exited normally, i.e. its condition became false within the fuel; the
`String` is the value of `unique_name` at that point. -/

/-- The title-path probing loop of `handle_chat` (lines 120–124). -/
def probeChatGo (st : Store) (base : String) : Nat → String → Nat → String × Bool
  | 0, u, _ => (u, !(storeGet st u).isSome)
  | fuel + 1, u, c =>
    if (storeGet st u).isSome then
      probeChatGo st base fuel (base ++ "-" ++ Nat.repr c) (c + 1)
    else (u, true)

/-- `unique_name` computation of the title path, entered with
`unique_name = base_name` and `counter = 1`. -/
def uniqueNameChat (st : Store) (base : String) : String × Bool :=
  probeChatGo st base (st.length + 1) base 1

/-- The probing loop of `rename_session_route` (lines 179–184). -/
def probeRenameGo (st : Store) (base old : String) :
    Nat → String → Nat → String × Bool
  | 0, u, _ => (u, !((storeGet st u).isSome && !(u == old)))
  | fuel + 1, u, c =>
    if (storeGet st u).isSome && !(u == old) then
      probeRenameGo st base old fuel (base ++ "-" ++ Nat.repr c) (c + 1)
    else (u, true)

/-- `unique_name` computation of the rename endpoint, entered with
`unique_name = sanitized_name` and `counter = 1`. -/
def uniqueNameRename (st : Store) (base old : String) : String × Bool :=
  probeRenameGo st base old (st.length + 1) base 1

/-! ## The endpoints -/

/-- Observed behaviour of the external collaborators during one
`/api/chat` request. -/
structure ChatEnv where
  /-- whether `api_key` is set (truthy). -/
  apiKey : Bool
  /-- the string returned by `chat_with_ai` (a reply, or its inline
  error text — either way a string). -/
  aiResponse : String
  /-- result of the title-generation call: `some t` if it returned the
  (stripped) text `t`, `none` if it raised an exception. -/
  titleResult : Option String
  /-- result of `count_tokens(user_message)`. -/
  tokenCount : Nat

/-- The global mutable state: `chat_sessions` and `session_counter`. -/
structure ServerState where
  sessions : Store
  counter : Nat
deriving DecidableEq

/-- The JSON body of a successful `/api/chat` response. -/
structure ChatResponse where
  response : String
  tokens : Nat
  sessionId : String
  fullHistory : List Message
deriving DecidableEq

/-- Outcome of `/api/chat`: a 400 error body, or the 200 JSON body. -/
inductive ChatOutcome
  | badRequest (error : String)
  | ok (r : ChatResponse)
deriving DecidableEq

/-- `is_new_session = not current_session_id or current_session_id not in
chat_sessions` (line 96). -/
def isNewSession (sid? : Option String) (st : Store) : Bool :=
  match sid? with
  | none => true
  | some s => s == "" || !(storeGet st s).isSome

/-- The session-naming block of `handle_chat` (lines 96–139): returns the
resolved `current_session_id` and the updated `session_counter`. -/
def resolveSession (env : ChatEnv) (st : ServerState) (updated : List Message)
    (sid? : Option String) : String × Nat :=
  let step1 : Option String × Nat :=
    if isNewSession sid? st.sessions && updated.length == 2 then
      if env.apiKey then
        match env.titleResult with
        | some title =>
          let base0 := sanitizeTitle title
          let base := if base0 == "" then "new-chat" else base0
          (some (uniqueNameChat st.sessions base).1, st.counter)
        | none =>
          (some ("session_" ++ Nat.repr (st.counter + 1)), st.counter + 1)
      else
        (some ("session_" ++ Nat.repr (st.counter + 1)), st.counter + 1)
    else (sid?, st.counter)
  if isFalsy step1.1 then
    ("session_" ++ Nat.repr (step1.2 + 1), step1.2 + 1)
  else (step1.1.getD "", step1.2)

/-- `handle_chat` (lines 74–148).  `message`, `history?` and `sid?` are
the three JSON fields (`None` when absent). -/
def handle_chat (env : ChatEnv) (st : ServerState) (message : Option String)
    (history? : Option (List Message)) (sid? : Option String) :
    ChatOutcome × ServerState :=
  let history := history?.getD []
  if isFalsy message then (.badRequest "No message provided", st)
  else
    let m := message.getD ""
    let messages := history ++ [⟨"user", m⟩]
    let updated := messages ++ [⟨"assistant", env.aiResponse⟩]
    let r := resolveSession env st updated sid?
    (.ok ⟨env.aiResponse, env.tokenCount, r.1, updated⟩,
     ⟨storeSet st.sessions r.1 updated, r.2⟩)

/-- `/api/get_sessions` (lines 150–153). -/
def get_sessions (st : Store) : List String := storeKeys st

/-- Outcome of `/api/load_session/<id>`. -/
inductive LoadOutcome
  | ok (history : List Message)
  | notFound (error : String)
deriving DecidableEq

/-- `load_session_route` (lines 155–161).  Note the Python truthiness
test `if history:` — an empty stored list would also fall through to the
404 branch. -/
def load_session_route (st : Store) (sid : String) : LoadOutcome :=
  match storeGet st sid with
  | some h => if h.isEmpty then .notFound "Session not found" else .ok h
  | none => .notFound "Session not found"

/-- Outcome of `/api/rename_session/<old>`. -/
inductive RenameOutcome
  | badRequest (error : String)
  | ok (message : String) (newSessionId : String)
  | notFound (error : String)
deriving DecidableEq

/-- `rename_session_route` (lines 164–194). -/
def rename_session_route (st : Store) (old : String) (newName? : Option String) :
    RenameOutcome × Store :=
  if isFalsy newName? then (.badRequest "New name required", st)
  else
    let sanitized := sanitizeRename (newName?.getD "")
    if sanitized == "" then (.badRequest "Invalid new name after sanitization", st)
    else
      let u := (uniqueNameRename st sanitized old).1
      if u == old then
        (.ok ("Session ID remains " ++ old ++ " (name unchanged).") old, st)
      else
        match storeGet st old with
        | some h =>
          (.ok ("Session renamed from " ++ old ++ " to " ++ u) u,
           storeSet (storePop st old) u h)
        | none => (.notFound "Session not found", st)

/-- Outcome of `/api/delete_session/<id>`. -/
inductive DeleteOutcome
  | ok (message : String)
  | notFound (error : String)
deriving DecidableEq

/-- `delete_session_route` (lines 197–203). -/
def delete_session_route (st : Store) (sid : String) : DeleteOutcome × Store :=
  if (storeGet st sid).isSome then
    (.ok ("Session " ++ sid ++ " deleted successfully."), storePop st sid)
  else (.notFound "Session not found", st)

/-- Server states reachable from process start (`chat_sessions = {}`,
`session_counter = 0`) through the mutating endpoints. -/
inductive Reachable : ServerState → Prop
  | init : Reachable ⟨[], 0⟩
  | chat (env : ChatEnv) (message : Option String)
      (history? : Option (List Message)) (sid? : Option String) {st : ServerState} :
      Reachable st → Reachable (handle_chat env st message history? sid?).2
  | rename (old : String) (newName? : Option String) {st : ServerState} :
      Reachable st →
      Reachable ⟨(rename_session_route st.sessions old newName?).2, st.counter⟩
  | delete (sid : String) {st : ServerState} :
      Reachable st →
      Reachable ⟨(delete_session_route st.sessions sid).2, st.counter⟩

/-! ## Store lemmas (Python dict semantics) -/

theorem storeGet_storeSet_self (st : Store) (k : String) (v : List Message) :
    storeGet (storeSet st k v) k = some v := by
  induction st with
  | nil => simp [storeSet, storeGet]
  | cons p rest ih =>
    obtain ⟨k', v'⟩ := p
    by_cases h : k' = k <;> simp [storeSet, storeGet, h, ih]

theorem storeGet_storeSet_ne (st : Store) (k k' : String) (v : List Message)
    (h : k' ≠ k) : storeGet (storeSet st k v) k' = storeGet st k' := by
  induction st with
  | nil => simp [storeSet, storeGet, Ne.symm h]
  | cons p rest ih =>
    obtain ⟨a, b⟩ := p
    by_cases ha : a = k
    · subst ha
      simp [storeSet, storeGet, Ne.symm h]
    · simp [storeSet, storeGet, ha, ih]

theorem storeGet_storePop_ne (st : Store) (k k' : String) (h : k' ≠ k) :
    storeGet (storePop st k) k' = storeGet st k' := by
  induction st with
  | nil => simp [storePop]
  | cons p rest ih =>
    obtain ⟨a, b⟩ := p
    by_cases ha : a = k
    · subst ha
      simp [storePop, storeGet, Ne.symm h]
    · simp [storePop, storeGet, ha, ih]

theorem storeGet_eq_none_of_not_mem (st : Store) (k : String)
    (h : k ∉ storeKeys st) : storeGet st k = none := by
  induction st with
  | nil => simp [storeGet]
  | cons p rest ih =>
    obtain ⟨a, b⟩ := p
    simp only [storeKeys, List.map_cons, List.mem_cons] at h
    push_neg at h
    simp [storeGet, Ne.symm h.1, ih (by simpa [storeKeys] using h.2)]

theorem storeGet_storePop_self (st : Store) (k : String)
    (hnd : (storeKeys st).Nodup) : storeGet (storePop st k) k = none := by
  induction st with
  | nil => simp [storePop, storeGet]
  | cons p rest ih =>
    obtain ⟨a, b⟩ := p
    simp only [storeKeys, List.map_cons, List.nodup_cons] at hnd
    by_cases ha : a = k
    · subst ha
      simpa [storePop] using storeGet_eq_none_of_not_mem rest a hnd.1
    · simp [storePop, storeGet, ha, ih hnd.2]

theorem mem_storeSet {p : String × List Message} {st : Store} {k : String}
    {v : List Message} (h : p ∈ storeSet st k v) : p = (k, v) ∨ p ∈ st := by
  induction st with
  | nil => simpa [storeSet] using h
  | cons q rest ih =>
    obtain ⟨a, b⟩ := q
    by_cases ha : a = k
    · subst ha
      rcases (by simpa [storeSet] using h : p = (a, v) ∨ p ∈ rest) with h' | h'
      · exact Or.inl h'
      · exact Or.inr (List.mem_cons_of_mem _ h')
    · rcases (by simpa [storeSet, ha] using h : p = (a, b) ∨ p ∈ storeSet rest k v) with h' | h'
      · exact Or.inr (by simp [h'])
      · rcases ih h' with h'' | h''
        · exact Or.inl h''
        · exact Or.inr (List.mem_cons_of_mem _ h'')

theorem mem_storePop {p : String × List Message} {st : Store} {k : String}
    (h : p ∈ storePop st k) : p ∈ st := by
  induction st with
  | nil => simp [storePop] at h
  | cons q rest ih =>
    obtain ⟨a, b⟩ := q
    by_cases ha : a = k
    · subst ha
      exact List.mem_cons_of_mem _ (by simpa [storePop] using h)
    · rcases (by simpa [storePop, ha] using h : p = (a, b) ∨ p ∈ storePop rest k) with h' | h'
      · simp [h']
      · exact List.mem_cons_of_mem _ (ih h')

theorem storeGet_mem {st : Store} {k : String} {h : List Message}
    (hg : storeGet st k = some h) : (k, h) ∈ st := by
  induction st with
  | nil => simp [storeGet] at hg
  | cons q rest ih =>
    obtain ⟨a, b⟩ := q
    by_cases ha : a = k
    · subst ha
      have hb : b = h := by simpa [storeGet] using hg
      simp [hb]
    · exact List.mem_cons_of_mem _ (ih (by simpa [storeGet, ha] using hg))

/-! ## Helper lemmas about the chat endpoint -/

/-- Discriminator for a successful (HTTP 200) chat outcome. -/
def ChatOutcome.isOk : ChatOutcome → Bool
  | .ok _ => true
  | .badRequest _ => false

/-- Evaluation of `handle_chat` on a request with a non-empty message. -/
theorem handle_chat_some (env : ChatEnv) (st : ServerState) (m : String)
    (history? : Option (List Message)) (sid? : Option String) (hm : m ≠ "") :
    handle_chat env st (some m) history? sid? =
      (ChatOutcome.ok ⟨env.aiResponse, env.tokenCount,
          (resolveSession env st
            ((history?.getD [] ++ [⟨"user", m⟩]) ++ [⟨"assistant", env.aiResponse⟩]) sid?).1,
          (history?.getD [] ++ [⟨"user", m⟩]) ++ [⟨"assistant", env.aiResponse⟩]⟩,
       ⟨storeSet st.sessions
          (resolveSession env st
            ((history?.getD [] ++ [⟨"user", m⟩]) ++ [⟨"assistant", env.aiResponse⟩]) sid?).1
          ((history?.getD [] ++ [⟨"user", m⟩]) ++ [⟨"assistant", env.aiResponse⟩]),
        (resolveSession env st
          ((history?.getD [] ++ [⟨"user", m⟩]) ++ [⟨"assistant", env.aiResponse⟩]) sid?).2⟩) := by
  simp [handle_chat, isFalsy, hm]

/-- C1: For every chat request with a non-empty message and an input history
of length n, the returned full history has length n + 2 and equals the input
history followed by a user message containing the given text and then an
assistant message containing the reply text, and exactly this full history
is stored under the resolved session key, overwriting any previous value at
that key (every other key is untouched). -/
theorem c1_chat_extends_history_and_persists (env : ChatEnv) (st : ServerState)
    (m : String) (history? : Option (List Message)) (sid? : Option String)
    (hm : m ≠ "") :
    (handle_chat env st (some m) history? sid?).1.isOk = true ∧
    ∀ r st', handle_chat env st (some m) history? sid? = (ChatOutcome.ok r, st') →
      r.fullHistory =
          (history?.getD []) ++ [⟨"user", m⟩, ⟨"assistant", env.aiResponse⟩] ∧
      r.fullHistory.length = (history?.getD []).length + 2 ∧
      r.response = env.aiResponse ∧
      storeGet st'.sessions r.sessionId = some r.fullHistory ∧
      ∀ k, k ≠ r.sessionId → storeGet st'.sessions k = storeGet st.sessions k := by
  constructor
  · rw [handle_chat_some env st m history? sid? hm]
    rfl
  · intro r st' h
    rw [handle_chat_some env st m history? sid? hm] at h
    injection h with h1 h2
    injection h1 with h1
    subst h1
    subst h2
    refine ⟨by simp, by simp, rfl, ?_, ?_⟩
    · exact storeGet_storeSet_self ..
    · exact fun k hk => storeGet_storeSet_ne _ _ _ _ hk

/-- Shared concrete environment: no API key configured, the completion
client returns the string "reply", `count_tokens` returns 3. -/
def envFallback : ChatEnv := ⟨false, "reply", none, 3⟩

/-- Witness for C1 at a concrete request. -/
theorem c1_witness :
    (handle_chat envFallback ⟨[], 0⟩ (some "hi") none none).1.isOk = true ∧
    storeGet
      (⟨[("session_1", [⟨"user", "hi"⟩, ⟨"assistant", "reply"⟩])], 1⟩ : ServerState).sessions
      "session_1" = some [⟨"user", "hi"⟩, ⟨"assistant", "reply"⟩] := by
  have h := c1_chat_extends_history_and_persists envFallback ⟨[], 0⟩ "hi" none none
    (by decide)
  refine ⟨h.1, ?_⟩
  have h2 := h.2 ⟨"reply", 3, "session_1", [⟨"user", "hi"⟩, ⟨"assistant", "reply"⟩]⟩
    ⟨[("session_1", [⟨"user", "hi"⟩, ⟨"assistant", "reply"⟩])], 1⟩ (by decide)
  exact h2.2.2.2.1

/-- C9 counterexample: a request whose body does carry a `message` field,
holding the empty string, is also rejected with the 400 error — so the 400
is not returned exactly when the field is absent. -/
theorem c9_counterexample :
    (handle_chat envFallback ⟨[], 0⟩ (some "") none none).1 =
      ChatOutcome.badRequest "No message provided" := by decide

/-- C9 (amended): The chat endpoint returns the 400 validation error with an
error body exactly when the message field is absent or holds the empty
string (Python truthiness of `if not user_message`); for every non-empty
message it proceeds to produce a reply; the history field defaults to the
empty list and the session id is optional. -/
theorem c9_amended_validation (env : ChatEnv) (st : ServerState) :
    (∀ history? sid?, (handle_chat env st none history? sid?).1 =
        ChatOutcome.badRequest "No message provided") ∧
    (∀ history? sid?, (handle_chat env st (some "") history? sid?).1 =
        ChatOutcome.badRequest "No message provided") ∧
    (∀ m history? sid?, m ≠ "" →
        (handle_chat env st (some m) history? sid?).1.isOk = true) ∧
    (∀ message sid?, handle_chat env st message none sid? =
        handle_chat env st message (some []) sid?) := by
  refine ⟨?_, ?_, ?_, ?_⟩
  · intro history? sid?
    simp [handle_chat, isFalsy]
  · intro history? sid?
    simp [handle_chat, isFalsy]
  · intro m history? sid? hm
    rw [handle_chat_some env st m history? sid? hm]
    rfl
  · intro message sid?
    rfl

/-- Witness for C9 at a concrete request. -/
theorem c9_witness :
    (handle_chat envFallback ⟨[], 0⟩ (some "hi") none none).1.isOk = true :=
  (c9_amended_validation envFallback ⟨[], 0⟩).2.2.1 "hi" none none (by decide)

/-! ## Freshness of probed session names (C2) -/

/-- When the title-path probing loop exits normally (flag `true`), the
name it returns is not a key of the store: this is the negation of the
loop condition `unique_name in chat_sessions`. -/
theorem probeChatGo_exit (st : Store) (base : String) :
    ∀ (fuel : Nat) (u0 : String) (c0 : Nat) (r : String),
      probeChatGo st base fuel u0 c0 = (r, true) → storeGet st r = none := by
  intro fuel
  induction fuel with
  | zero =>
    intro u0 c0 r h
    simp only [probeChatGo, Prod.mk.injEq] at h
    obtain ⟨h1, h2⟩ := h
    subst h1
    cases hg : storeGet st u0 with
    | none => rfl
    | some v => simp [hg] at h2
  | succ fuel ih =>
    intro u0 c0 r h
    by_cases hg : (storeGet st u0).isSome = true
    · rw [probeChatGo, if_pos hg] at h
      exact ih _ _ _ h
    · rw [probeChatGo, if_neg hg] at h
      injection h with h1 _
      subst h1
      simpa using hg

/-- When the rename probing loop exits normally with a name different from
the old session id, that name is not a key of the store: negation of the
loop condition `unique_name in chat_sessions and unique_name != old`. -/
theorem probeRenameGo_exit (st : Store) (base old : String) :
    ∀ (fuel : Nat) (u0 : String) (c0 : Nat) (r : String),
      probeRenameGo st base old fuel u0 c0 = (r, true) → r ≠ old →
      storeGet st r = none := by
  intro fuel
  induction fuel with
  | zero =>
    intro u0 c0 r h hr
    simp only [probeRenameGo, Prod.mk.injEq] at h
    obtain ⟨h1, h2⟩ := h
    subst h1
    rw [Bool.not_eq_true', Bool.and_eq_false_iff] at h2
    rcases h2 with h2 | h2
    · simpa using h2
    · simp at h2
      exact absurd h2 hr
  | succ fuel ih =>
    intro u0 c0 r h hr
    by_cases hg : ((storeGet st u0).isSome && !(u0 == old)) = true
    · rw [probeRenameGo, if_pos hg] at h
      exact ih _ _ _ h hr
    · rw [probeRenameGo, if_neg hg] at h
      injection h with h1 _
      subst h1
      rw [Bool.not_eq_true, Bool.and_eq_false_iff] at hg
      rcases hg with hg | hg
      · simpa using hg
      · simp at hg
        exact absurd hg hr

/-- The probing loop only ever returns its starting candidate or a
hyphen-suffixed candidate built from the base name. -/
theorem probeChatGo_shape (st : Store) (base : String) :
    ∀ (fuel : Nat) (u0 : String) (c0 : Nat),
      (probeChatGo st base fuel u0 c0).1 = u0 ∨
      ∃ c, (probeChatGo st base fuel u0 c0).1 = base ++ "-" ++ Nat.repr c := by
  intro fuel
  induction fuel with
  | zero => intro u0 c0; exact Or.inl rfl
  | succ fuel ih =>
    intro u0 c0
    by_cases hg : (storeGet st u0).isSome = true
    · rw [probeChatGo, if_pos hg]
      rcases ih (base ++ "-" ++ Nat.repr c0) (c0 + 1) with h | h
      · exact Or.inr ⟨c0, h⟩
      · exact Or.inr h
    · rw [probeChatGo, if_neg hg]
      exact Or.inl rfl

/-- A string extended by a hyphen and a suffix is never empty. -/
theorem append_hyphen_ne_empty (a b : String) : a ++ "-" ++ b ≠ "" := by
  intro h
  have hd := congrArg String.data h
  simp [String.data_append] at hd

/-- C2 counterexample: with `session_1` already a key of the store (any
client may store under that id by sending it as `sessionId` with a
non-empty history) and `session_counter = 0`, a chat request that takes
the counter fallback generates and assigns `session_1` again, although it
is already a key at that moment — its old value is overwritten. -/
theorem c2_counterexample :
    (storeGet
        [("session_1", [⟨"user", "h"⟩, ⟨"assistant", "r"⟩])] "session_1").isSome = true ∧
    (handle_chat envFallback ⟨[("session_1", [⟨"user", "h"⟩, ⟨"assistant", "r"⟩])], 0⟩
        (some "hi") none none).1 =
      ChatOutcome.ok ⟨"reply", 3, "session_1", [⟨"user", "hi"⟩, ⟨"assistant", "reply"⟩]⟩ ∧
    storeGet
      (handle_chat envFallback ⟨[("session_1", [⟨"user", "h"⟩, ⟨"assistant", "r"⟩])], 0⟩
        (some "hi") none none).2.sessions "session_1" =
      some [⟨"user", "hi"⟩, ⟨"assistant", "reply"⟩] := by decide

/-- C2 (amended): Identifiers resolved by suffix probing are never existing
keys at the moment they are assigned: whenever the title-path probing loop
of the chat endpoint exits, its result is not a key of the store, and
whenever the rename probing loop exits with a result different from the old
id, its result is not a key of the store; in particular the session id
resolved by the title path of `resolveSession` is fresh.  The counter-based
fallback identifier `session_N` is assigned without consulting the store
and can collide with an existing key (see the counterexample). -/
theorem c2_amended_probed_names_fresh :
    (∀ (st : Store) (base : String) (fuel : Nat) (u0 : String) (c0 : Nat) (r : String),
        probeChatGo st base fuel u0 c0 = (r, true) → storeGet st r = none) ∧
    (∀ (st : Store) (base old : String) (fuel : Nat) (u0 : String) (c0 : Nat)
        (r : String),
        probeRenameGo st base old fuel u0 c0 = (r, true) → r ≠ old →
        storeGet st r = none) ∧
    (∀ (env : ChatEnv) (st : ServerState) (updated : List Message)
        (sid? : Option String) (t : String),
        env.apiKey = true → env.titleResult = some t →
        (isNewSession sid? st.sessions && updated.length == 2) = true →
        (uniqueNameChat st.sessions
            (if sanitizeTitle t == "" then "new-chat" else sanitizeTitle t)).2 = true →
        storeGet st.sessions (resolveSession env st updated sid?).1 = none) := by
  refine ⟨probeChatGo_exit, probeRenameGo_exit, ?_⟩
  intro env st updated sid? t hkey htitle hnew hflag
  have hbase : (if sanitizeTitle t == "" then "new-chat" else sanitizeTitle t) ≠ "" := by
    by_cases h0 : sanitizeTitle t == ""
    · simp [h0]
    · simp only [h0, if_false]
      simpa using h0
  set base := if sanitizeTitle t == "" then "new-chat" else sanitizeTitle t with hbdef
  have hfresh : storeGet st.sessions (uniqueNameChat st.sessions base).1 = none := by
    apply probeChatGo_exit st.sessions base (st.sessions.length + 1) base 1
    rw [← hflag]
    rfl
  have hne : (uniqueNameChat st.sessions base).1 ≠ "" := by
    rcases probeChatGo_shape st.sessions base (st.sessions.length + 1) base 1 with h | ⟨c, h⟩
    · show (probeChatGo st.sessions base (st.sessions.length + 1) base 1).1 ≠ ""
      rw [h]
      exact hbase
    · show (probeChatGo st.sessions base (st.sessions.length + 1) base 1).1 ≠ ""
      rw [h]
      exact append_hyphen_ne_empty base (Nat.repr c)
  simp only [resolveSession, hnew, if_true, hkey, htitle, ← hbdef]
  simp [isFalsy, hne, hfresh]

/-- Witness for C2 at a concrete request: the title path of
`resolveSession` picks a name that is fresh for the (empty) store. -/
theorem c2_witness :
    storeGet ([] : Store)
      (resolveSession ⟨true, "r", some "My Chat", 0⟩ ⟨[], 0⟩
        [⟨"user", "hi"⟩, ⟨"assistant", "r"⟩] none).1 = none :=
  c2_amended_probed_names_fresh.2.2 ⟨true, "r", some "My Chat", 0⟩ ⟨[], 0⟩
    [⟨"user", "hi"⟩, ⟨"assistant", "r"⟩] none "My Chat" rfl rfl (by decide) (by decide)

/-! ## The rename endpoint (C5, C6, C10) -/

/-- When the proposed name sanitizes to the old session id itself, the
probing loop exits immediately (its condition `unique_name != old` fails)
and the endpoint answers with the unchanged id, leaving the store alone.
`old ≠ ""` reflects that the Flask URL segment `<old_session_id>` is
always a non-empty string. -/
theorem rename_sanitized_eq_old (st : Store) (old n : String)
    (hold : old ≠ "") (hn : n ≠ "") (hs : sanitizeRename n = old) :
    rename_session_route st old (some n) =
      (RenameOutcome.ok ("Session ID remains " ++ old ++ " (name unchanged).") old,
       st) := by
  have hf : isFalsy (some n) = false := by simp [isFalsy, hn]
  have hu : (uniqueNameRename st old old).1 = old := by
    show (probeRenameGo st old old (st.length + 1) old 1).1 = old
    simp [probeRenameGo]
  simp [rename_session_route, hf, hs, hold, hu]

/-- C6: For every rename request whose sanitized new name equals the old
session id, the rename endpoint returns the unchanged session id as the
resulting id and the session store is not mutated in any way.  (`old ≠ ""`
because the Flask route only matches non-empty URL segments.) -/
theorem c6_rename_to_same_id_is_noop (st : Store) (old n : String)
    (hold : old ≠ "") (hn : n ≠ "") (hs : sanitizeRename n = old) :
    rename_session_route st old (some n) =
      (RenameOutcome.ok ("Session ID remains " ++ old ++ " (name unchanged).") old,
       st) :=
  rename_sanitized_eq_old st old n hold hn hs

/-- Witness for C6: renaming session `a` to `A` (which sanitizes to `a`). -/
theorem c6_witness :
    rename_session_route [("a", [⟨"user", "x"⟩])] "a" (some "A") =
      (RenameOutcome.ok "Session ID remains a (name unchanged)." "a",
       [("a", [⟨"user", "x"⟩])]) :=
  c6_rename_to_same_id_is_noop [("a", [⟨"user", "x"⟩])] "a" "A"
    (by decide) (by decide) (by decide)

/-- C5: For every successful rename of an existing session key `old` to a
resolved unique name `u` distinct from `old`, the store afterwards maps `u`
to exactly the history stored under `old` before the call, `old` is no
longer a key, and every other key's value is unchanged.  (The key-list of a
Python dict is duplicate-free, whence the `Nodup` hypothesis.) -/
theorem c5_rename_moves_history (st : Store) (old n : String) (h : List Message)
    (hn : n ≠ "") (hs : sanitizeRename n ≠ "")
    (hu : (uniqueNameRename st (sanitizeRename n) old).1 ≠ old)
    (hold : storeGet st old = some h)
    (hnd : (storeKeys st).Nodup) :
    rename_session_route st old (some n) =
      (RenameOutcome.ok
        ("Session renamed from " ++ old ++ " to " ++
          (uniqueNameRename st (sanitizeRename n) old).1)
        (uniqueNameRename st (sanitizeRename n) old).1,
       storeSet (storePop st old) (uniqueNameRename st (sanitizeRename n) old).1 h) ∧
    storeGet (storeSet (storePop st old) (uniqueNameRename st (sanitizeRename n) old).1 h)
      (uniqueNameRename st (sanitizeRename n) old).1 = some h ∧
    storeGet (storeSet (storePop st old) (uniqueNameRename st (sanitizeRename n) old).1 h)
      old = none ∧
    ∀ k, k ≠ (uniqueNameRename st (sanitizeRename n) old).1 → k ≠ old →
      storeGet (storeSet (storePop st old) (uniqueNameRename st (sanitizeRename n) old).1 h)
        k = storeGet st k := by
  have hf : isFalsy (some n) = false := by simp [isFalsy, hn]
  refine ⟨?_, ?_, ?_, ?_⟩
  · simp [rename_session_route, hf, hs, hu, hold]
  · exact storeGet_storeSet_self ..
  · rw [storeGet_storeSet_ne _ _ _ _ (Ne.symm hu)]
    exact storeGet_storePop_self st old hnd
  · intro k hk1 hk2
    rw [storeGet_storeSet_ne _ _ _ _ hk1]
    exact storeGet_storePop_ne st old k hk2

/-- Witness for C5: renaming session `a` to `B z` moves its history to the
fresh key `b-z` and leaves key `b` untouched. -/
theorem c5_witness :
    rename_session_route [("a", [⟨"user", "x"⟩]), ("b", [⟨"user", "y"⟩])] "a"
        (some "B z") =
      (RenameOutcome.ok "Session renamed from a to b-z" "b-z",
       [("b", [⟨"user", "y"⟩]), ("b-z", [⟨"user", "x"⟩])]) := by
  have hc := c5_rename_moves_history
    [("a", [⟨"user", "x"⟩]), ("b", [⟨"user", "y"⟩])] "a" "B z" [⟨"user", "x"⟩]
    (by decide) (by decide) (by decide) (by decide) (by decide)
  exact hc.1

/-- C10: Calling the rename endpoint with an old id absent from the store
and a new name sanitizing to that very id yields the success response with
the unchanged id (not the 404), leaving the store unchanged; the 404 is
returned only when the sanitized-and-probed name differs from the old id
and the old id is absent from the store. -/
theorem c10_rename_unknown_old (st : Store) (old : String) (hold : old ≠ "") :
    (∀ n, n ≠ "" → sanitizeRename n = old → storeGet st old = none →
        rename_session_route st old (some n) =
          (RenameOutcome.ok ("Session ID remains " ++ old ++ " (name unchanged).") old,
           st)) ∧
    (∀ (newName? : Option String) (e : String) (st2 : Store),
        rename_session_route st old newName? = (RenameOutcome.notFound e, st2) →
        ∃ n, newName? = some n ∧
          (uniqueNameRename st (sanitizeRename n) old).1 ≠ old ∧
          storeGet st old = none ∧ st2 = st) := by
  constructor
  · intro n hn hs _
    exact rename_sanitized_eq_old st old n hold hn hs
  · intro newName? e st2 hr
    cases newName? with
    | none => simp [rename_session_route, isFalsy] at hr
    | some n =>
      by_cases hn : n = ""
      · subst hn
        simp [rename_session_route, isFalsy] at hr
      · have hf : isFalsy (some n) = false := by simp [isFalsy, hn]
        simp only [rename_session_route, hf, Bool.false_eq_true, if_false,
          Option.getD_some] at hr
        by_cases hs : (sanitizeRename n == "") = true
        · rw [if_pos hs] at hr
          simp at hr
        · rw [if_neg hs] at hr
          by_cases hu : ((uniqueNameRename st (sanitizeRename n) old).1 == old) = true
          · rw [if_pos hu] at hr
            simp at hr
          · rw [if_neg hu] at hr
            cases hg : storeGet st old with
            | some v =>
              rw [hg] at hr
              simp at hr
            | none =>
              rw [hg] at hr
              simp only [Prod.mk.injEq, RenameOutcome.notFound.injEq] at hr
              exact ⟨n, rfl, by simpa using hu, rfl, hr.2.symm⟩

/-- Witness for C10: old id `a` absent from the empty store, new name `A`
sanitizing to `a`: success with the unchanged id. -/
theorem c10_witness :
    rename_session_route [] "a" (some "A") =
      (RenameOutcome.ok "Session ID remains a (name unchanged)." "a", []) :=
  (c10_rename_unknown_old [] "a" (by decide)).1 "A" (by decide) (by decide) rfl

/-! ## Reachability invariant and the load endpoint (C8) -/

/-- Every chat request leaves the store unchanged (validation failure) or
overwrites one key with a non-empty history. -/
theorem handle_chat_sessions (env : ChatEnv) (st : ServerState)
    (message : Option String) (history? : Option (List Message))
    (sid? : Option String) :
    (handle_chat env st message history? sid?).2.sessions = st.sessions ∨
    ∃ sid updated, updated ≠ [] ∧
      (handle_chat env st message history? sid?).2.sessions =
        storeSet st.sessions sid updated := by
  by_cases hf : isFalsy message = true
  · left
    simp [handle_chat, hf]
  · right
    cases message with
    | none => simp [isFalsy] at hf
    | some m =>
      have hm : m ≠ "" := by simpa [isFalsy] using hf
      rw [handle_chat_some env st m history? sid? hm]
      exact ⟨_, _, by simp, rfl⟩

/-- Every rename request leaves the store unchanged or moves one existing
binding to a new key. -/
theorem rename_sessions (s : Store) (old : String) (newName? : Option String) :
    (rename_session_route s old newName?).2 = s ∨
    ∃ u h, storeGet s old = some h ∧
      (rename_session_route s old newName?).2 = storeSet (storePop s old) u h := by
  simp only [rename_session_route]
  split
  · left; rfl
  · split
    · left; rfl
    · split
      · left; rfl
      · split
        · rename_i h heq
          exact Or.inr ⟨_, h, heq, rfl⟩
        · left; rfl

/-- Every delete request leaves the store unchanged or removes one key. -/
theorem delete_sessions (s : Store) (sid : String) :
    (delete_session_route s sid).2 = s ∨
    (delete_session_route s sid).2 = storePop s sid := by
  by_cases hg : (storeGet s sid).isSome = true
  · right; simp [delete_session_route, hg]
  · left; simp [delete_session_route, hg]

/-- Invariant of all reachable server states: every stored history is
non-empty (the chat endpoint always stores at least the user/assistant
pair, and rename only moves existing values). -/
theorem reachable_histories_ne_nil {st : ServerState} (hr : Reachable st) :
    ∀ p ∈ st.sessions, p.2 ≠ [] := by
  induction hr with
  | init => intro p hp; simp at hp
  | chat env message history? sid? hprev ih =>
    intro p hp
    rename_i st0
    rcases handle_chat_sessions env st0 message history? sid? with hc | ⟨sid, updated, hne, hc⟩
    · exact ih p (hc ▸ hp)
    · rw [hc] at hp
      rcases mem_storeSet hp with h' | h'
      · rw [h']
        exact hne
      · exact ih p h'
  | rename old newName? hprev ih =>
    intro p hp
    rename_i st0
    rcases rename_sessions st0.sessions old newName? with hc | ⟨u, h, hg, hc⟩
    · exact ih p (by simpa [hc] using hp)
    · simp only [hc] at hp
      rcases mem_storeSet hp with h' | h'
      · rw [h']
        exact ih (old, h) (storeGet_mem hg)
      · exact ih p (mem_storePop h')
  | delete sid hprev ih =>
    intro p hp
    rename_i st0
    rcases delete_sessions st0.sessions sid with hc | hc
    · exact ih p (by simpa [hc] using hp)
    · simp only [hc] at hp
      exact ih p (mem_storePop hp)

/-- C8: For every reachable server state, loading a session id that is not
a key of the store returns the 404 not-found error (never an empty
history), and loading a session id that is a key returns exactly the
stored history for that key. -/
theorem c8_load_session (st : ServerState) (sid : String) (hr : Reachable st) :
    (storeGet st.sessions sid = none →
      load_session_route st.sessions sid = LoadOutcome.notFound "Session not found") ∧
    (∀ h, storeGet st.sessions sid = some h →
      load_session_route st.sessions sid = LoadOutcome.ok h) := by
  constructor
  · intro hg
    simp [load_session_route, hg]
  · intro h hg
    have hne : h ≠ [] := reachable_histories_ne_nil hr (sid, h) (storeGet_mem hg)
    simp [load_session_route, hg, hne]

/-- Witness for C8: after one chat request the stored session loads back
as exactly its stored two-message history. -/
theorem c8_witness :
    load_session_route
      (handle_chat envFallback ⟨[], 0⟩ (some "hi") none none).2.sessions "session_1" =
      LoadOutcome.ok [⟨"user", "hi"⟩, ⟨"assistant", "reply"⟩] :=
  (c8_load_session _ "session_1"
    (Reachable.chat envFallback (some "hi") none none Reachable.init)).2
    [⟨"user", "hi"⟩, ⟨"assistant", "reply"⟩] (by decide)

/-! ## The sanitizers versus their spec description (C3, C4) -/

/-- Spec-side description of sanitization, step 1: lowercase. -/
def specLowercase (s : String) : String := String.mk (s.data.map Char.toLower)

/-- Spec-side description, step 2: split on whitespace and join the pieces
with hyphens. -/
def specHyphenate (s : String) : String :=
  String.mk (List.intercalate ['-'] (pySplit s.data))

/-- Spec-side description, step 3: remove every character that is not a
letter, a digit, or a hyphen. -/
def specKeepAllowed (s : String) : String :=
  String.mk (s.data.filter (fun c => c.isAlpha || c.isDigit || c == '-'))

/-- The character filter the chat title path actually applies: letters and
hyphens only (digits are removed). -/
def specKeepLettersHyphen (s : String) : String :=
  String.mk (s.data.filter (fun c => c.isAlpha || c == '-'))

/-- Spec-side description, step 4: trim leading and trailing hyphens. -/
def specTrimHyphens (s : String) : String := String.mk (stripChar '-' s.data)

/-- Sanitization exactly as the spec words it (digits kept). -/
def specSanitize (s : String) : String :=
  specTrimHyphens (specKeepAllowed (specHyphenate (specLowercase s)))

/-- The spec pipeline with the title path's actual letters-and-hyphens
filter. -/
def specSanitizeTitle (s : String) : String :=
  specTrimHyphens (specKeepLettersHyphen (specHyphenate (specLowercase s)))

/-- C3 counterexample: on the input "chat 42" the chat-path sanitizer
drops the digits while the spec-described sanitization keeps them, so the
two paths do not both implement the described procedure. -/
theorem c3_counterexample :
    sanitizeTitle "chat 42" = "chat" ∧ specSanitize "chat 42" = "chat-42" ∧
    sanitizeTitle "chat 42" ≠ specSanitize "chat 42" := by decide

/-- C3 (amended): the rename-path sanitizer is exactly the spec-described
procedure (lowercase, hyphen-join, keep letters/digits/hyphens, trim
hyphens — digits kept); the chat title-path sanitizer follows the same
pipeline except that its character filter keeps only letters and hyphens,
so digits are removed there. -/
theorem c3_amended_sanitizers (s : String) :
    sanitizeRename s = specSanitize s ∧ sanitizeTitle s = specSanitizeTitle s :=
  ⟨rfl, rfl⟩

/-- A probed chat-path name built from a non-empty base is non-empty. -/
theorem uniqueNameChat_ne_empty (s : Store) (base : String) (hb : base ≠ "") :
    (uniqueNameChat s base).1 ≠ "" := by
  rcases probeChatGo_shape s base (s.length + 1) base 1 with h | ⟨c, h⟩
  · show (probeChatGo s base (s.length + 1) base 1).1 ≠ ""
    rw [h]
    exact hb
  · show (probeChatGo s base (s.length + 1) base 1).1 ≠ ""
    rw [h]
    exact append_hyphen_ne_empty base (Nat.repr c)

/-- C4 counterexample: renaming session `chat-a` to `!!!` sanitizes to the
empty string, and the rename endpoint rejects the request with a 400
error instead of substituting a placeholder name and proceeding. -/
theorem c4_counterexample :
    sanitizeRename "!!!" = "" ∧
    rename_session_route [("chat-a", [⟨"user", "x"⟩])] "chat-a" (some "!!!") =
      (RenameOutcome.badRequest "Invalid new name after sanitization",
       [("chat-a", [⟨"user", "x"⟩])]) := by decide

/-- C4 (amended): when sanitization yields the empty string, the chat
title path substitutes the placeholder `new-chat` and proceeds (the
resolved id is the probed placeholder), whereas the rename endpoint fails
the request with a 400 error. -/
theorem c4_amended_empty_sanitization :
    (∀ (env : ChatEnv) (st : ServerState) (updated : List Message)
        (sid? : Option String) (t : String),
        env.apiKey = true → env.titleResult = some t → sanitizeTitle t = "" →
        (isNewSession sid? st.sessions && updated.length == 2) = true →
        (resolveSession env st updated sid?).1 =
          (uniqueNameChat st.sessions "new-chat").1) ∧
    (∀ (st : Store) (old n : String), n ≠ "" → sanitizeRename n = "" →
        rename_session_route st old (some n) =
          (RenameOutcome.badRequest "Invalid new name after sanitization", st)) := by
  constructor
  · intro env st updated sid? t hk ht hs hnew
    have hne := uniqueNameChat_ne_empty st.sessions "new-chat" (by decide)
    simp only [resolveSession, hnew, if_true, hk, ht, hs]
    simp [isFalsy, hne]
  · intro st old n hn hs
    have hf : isFalsy (some n) = false := by simp [isFalsy, hn]
    simp [rename_session_route, hf, hs]

/-- Witness for C4: a concrete rename whose proposed name sanitizes to the
empty string is rejected with the 400 error. -/
theorem c4_witness :
    rename_session_route [("chat-a", [⟨"user", "x"⟩])] "chat-a" (some "###") =
      (RenameOutcome.badRequest "Invalid new name after sanitization",
       [("chat-a", [⟨"user", "x"⟩])]) :=
  c4_amended_empty_sanitization.2 [("chat-a", [⟨"user", "x"⟩])] "chat-a" "###"
    (by decide) (by decide)

/-! ## Idempotence of the rename sanitizer (C7) -/

/-- Lowercasing is idempotent: `toLower` maps the upper-case range into
the lower-case range and fixes everything else. -/
theorem toLower_toLower (c : Char) : Char.toLower (Char.toLower c) = Char.toLower c := by
  unfold Char.toLower
  by_cases h : c.toNat ≥ 65 ∧ c.toNat ≤ 90
  · rw [if_pos h]
    have hv : (c.toNat + 32).isValidChar := Or.inl (by omega)
    have ht : (Char.ofNat (c.toNat + 32)).toNat = c.toNat + 32 := by
      rw [Char.ofNat, dif_pos hv]
      rfl
    rw [if_neg (by rw [ht]; omega)]
  · rw [if_neg h, if_neg h]

/-- Characters accepted by the rename filter are not whitespace. -/
theorem keepRename_not_space (c : Char) (h : keepRename c = true) :
    pyIsSpace c = false := by
  by_contra hsp
  rw [Bool.not_eq_false] at hsp
  simp only [pyIsSpace, Bool.or_eq_true, beq_iff_eq] at hsp
  rcases hsp with ((((h1 | h1) | h1) | h1) | h1) | h1 <;>
    (subst h1; exact absurd h (by decide))

/-- Characters surviving `stripChar` were in the original list. -/
theorem mem_stripChar {c d : Char} {l : List Char} (h : c ∈ stripChar d l) :
    c ∈ l := by
  unfold stripChar at h
  rw [List.mem_reverse] at h
  have h1 := List.dropWhile_subset _ h
  rw [List.mem_reverse] at h1
  exact List.dropWhile_subset _ h1

/-- The head of a `dropWhile` result falsifies the predicate. -/
theorem head_dropWhile_false {p : Char → Bool} :
    ∀ {l : List Char} {c : Char} {t : List Char},
      List.dropWhile p l = c :: t → p c = false := by
  intro l
  induction l with
  | nil => intro c t h; simp at h
  | cons a as ih =>
    intro c t h
    by_cases hp : p a = true
    · rw [List.dropWhile_cons_of_pos hp] at h
      exact ih h
    · rw [List.dropWhile_cons_of_neg hp] at h
      injection h with h1 _
      subst h1
      simpa using hp

/-- `dropWhile` is idempotent. -/
theorem dropWhile_dropWhile {p : Char → Bool} (l : List Char) :
    (l.dropWhile p).dropWhile p = l.dropWhile p := by
  cases hd : l.dropWhile p with
  | nil => rfl
  | cons c t =>
    have hc : p c = false := head_dropWhile_false hd
    rw [List.dropWhile_cons, hc]
    simp

/-- `stripChar` is idempotent: its output has no leading or trailing
occurrence of the stripped character. -/
theorem stripChar_stripChar (d : Char) (l : List Char) :
    stripChar d (stripChar d l) = stripChar d l := by
  have key : (stripChar d l).dropWhile (· == d) = stripChar d l := by
    cases hB : stripChar d l with
    | nil => rfl
    | cons c t =>
      have hh : (l.dropWhile (· == d)).head? = some c := by
        have h1 : (stripChar d l).head? = some c := by rw [hB]; rfl
        unfold stripChar at h1
        rw [List.head?_reverse] at h1
        rw [← List.getLast?_reverse]
        rw [← List.takeWhile_append_dropWhile (p := (· == d))
          (l := (l.dropWhile (· == d)).reverse), List.getLast?_append, h1]
        rfl
      obtain ⟨t2, hA⟩ : ∃ t2, l.dropWhile (· == d) = c :: t2 := by
        cases hA : l.dropWhile (· == d) with
        | nil => rw [hA] at hh; simp at hh
        | cons a t2 =>
          rw [hA] at hh
          simp only [List.head?_cons, Option.some.injEq] at hh
          subst hh
          exact ⟨t2, rfl⟩
      have hq : (c == d) = false := head_dropWhile_false (p := fun x => x == d) hA
      rw [List.dropWhile_cons, hq]
      simp
  calc stripChar d (stripChar d l)
      = (((stripChar d l).dropWhile (· == d)).reverse.dropWhile (· == d)).reverse := rfl
    _ = ((stripChar d l).reverse.dropWhile (· == d)).reverse := by rw [key]
    _ = ((((l.dropWhile (· == d)).reverse.dropWhile (· == d)).reverse.reverse).dropWhile
          (· == d)).reverse := rfl
    _ = ((((l.dropWhile (· == d)).reverse.dropWhile (· == d))).dropWhile
          (· == d)).reverse := by rw [List.reverse_reverse]
    _ = (((l.dropWhile (· == d)).reverse.dropWhile (· == d))).reverse := by
          rw [dropWhile_dropWhile]
    _ = stripChar d l := rfl

/-- On whitespace-free input, `splitWSAux` yields the single accumulated
word (or nothing when everything is empty). -/
theorem splitWSAux_no_space :
    ∀ (l acc : List Char), (∀ c ∈ l, pyIsSpace c = false) →
      splitWSAux l acc =
        if acc.reverse ++ l = [] then [] else [acc.reverse ++ l] := by
  intro l
  induction l with
  | nil =>
    intro acc _
    by_cases ha : acc = []
    · subst ha
      rfl
    · have h1 : acc.isEmpty = false := by simpa [List.isEmpty_iff] using ha
      simp [splitWSAux, h1, ha]
  | cons c cs ih =>
    intro acc h
    have hc : pyIsSpace c = false := h c (by simp)
    rw [show splitWSAux (c :: cs) acc =
        if pyIsSpace c then
          (if acc.isEmpty then splitWSAux cs [] else acc.reverse :: splitWSAux cs [])
        else splitWSAux cs (c :: acc) from rfl]
    rw [hc]
    simp only [Bool.false_eq_true, if_false]
    rw [ih (c :: acc) (fun x hx => h x (List.mem_cons_of_mem _ hx))]
    simp [List.append_assoc]

/-- `str.split()` of a whitespace-free string is the one-word list. -/
theorem pySplit_no_space (l : List Char) (h : ∀ c ∈ l, pyIsSpace c = false) :
    pySplit l = if l = [] then [] else [l] := by
  unfold pySplit
  rw [splitWSAux_no_space l [] h]
  simp

/-- Characters of the words produced by `splitWSAux` come from the input
or the accumulator. -/
theorem mem_splitWSAux :
    ∀ (l acc w : List Char) (c : Char),
      w ∈ splitWSAux l acc → c ∈ w → c ∈ l ∨ c ∈ acc := by
  intro l
  induction l with
  | nil =>
    intro acc w c hw hc
    by_cases ha : acc.isEmpty = true
    · rw [show splitWSAux [] acc = if acc.isEmpty then [] else [acc.reverse] from rfl,
        if_pos ha] at hw
      simp at hw
    · rw [show splitWSAux [] acc = if acc.isEmpty then [] else [acc.reverse] from rfl,
        if_neg ha] at hw
      have hw' : w = acc.reverse := by simpa using hw
      subst hw'
      exact Or.inr (by simpa using hc)
  | cons a as ih =>
    intro acc w c hw hc
    rw [show splitWSAux (a :: as) acc =
        if pyIsSpace a then
          (if acc.isEmpty then splitWSAux as [] else acc.reverse :: splitWSAux as [])
        else splitWSAux as (a :: acc) from rfl] at hw
    by_cases hs : pyIsSpace a = true
    · rw [if_pos hs] at hw
      by_cases ha : acc.isEmpty = true
      · rw [if_pos ha] at hw
        rcases ih [] w c hw hc with h1 | h1
        · exact Or.inl (List.mem_cons_of_mem _ h1)
        · simp at h1
      · rw [if_neg ha] at hw
        rcases List.mem_cons.mp hw with h1 | h1
        · subst h1
          exact Or.inr (by simpa using hc)
        · rcases ih [] w c h1 hc with h2 | h2
          · exact Or.inl (List.mem_cons_of_mem _ h2)
          · simp at h2
    · rw [if_neg hs] at hw
      rcases ih (a :: acc) w c hw hc with h1 | h1
      · exact Or.inl (List.mem_cons_of_mem _ h1)
      · rcases List.mem_cons.mp h1 with h2 | h2
        · exact Or.inl (by simp [h2])
        · exact Or.inr h2

/-- Characters of the words of `str.split()` come from the input. -/
theorem mem_pySplit {l w : List Char} {c : Char}
    (hw : w ∈ pySplit l) (hc : c ∈ w) : c ∈ l := by
  rcases mem_splitWSAux l [] w c hw hc with h | h
  · exact h
  · simp at h

/-- Membership in an interspersed list. -/
theorem mem_intersperse {s x : List Char} :
    ∀ {L : List (List Char)}, x ∈ List.intersperse s L → x = s ∨ x ∈ L := by
  intro L
  induction L with
  | nil => intro h; simp at h
  | cons a t ih =>
    intro h
    cases t with
    | nil =>
      have hx : x = a := by simpa using h
      exact Or.inr (by simp [hx])
    | cons b t2 =>
      rw [List.intersperse_cons_cons] at h
      rcases List.mem_cons.mp h with h1 | h1
      · exact Or.inr (by simp [h1])
      · rcases List.mem_cons.mp h1 with h2 | h2
        · exact Or.inl h2
        · rcases ih h2 with h3 | h3
          · exact Or.inl h3
          · exact Or.inr (List.mem_cons_of_mem _ h3)

/-- Characters of a hyphen-intercalation are hyphens or characters of the
pieces. -/
theorem mem_intercalate_hyphen {c : Char} {L : List (List Char)}
    (h : c ∈ List.intercalate ['-'] L) : c = '-' ∨ ∃ w ∈ L, c ∈ w := by
  unfold List.intercalate at h
  rw [List.mem_flatten] at h
  obtain ⟨m, hm, hc⟩ := h
  rcases mem_intersperse hm with h1 | h1
  · subst h1
    exact Or.inl (by simpa using hc)
  · exact Or.inr ⟨m, h1, hc⟩

/-- Intercalating a single piece returns it unchanged. -/
theorem intercalate_single (s : List Char) (a : List Char) :
    List.intercalate s [a] = a := by
  simp [List.intercalate]

/-- Every character of a sanitized name passes the filter and is fixed by
lowercasing. -/
theorem sanitizeCore_mem_props (keep : Char → Bool) (l : List Char) (c : Char)
    (hc : c ∈ sanitizeCore keep l) : keep c = true ∧ Char.toLower c = c := by
  unfold sanitizeCore at hc
  have h1 := mem_stripChar hc
  rw [List.mem_filter] at h1
  obtain ⟨h2, hkeep⟩ := h1
  refine ⟨hkeep, ?_⟩
  rcases mem_intercalate_hyphen h2 with h3 | ⟨w, hw, hcw⟩
  · subst h3
    rfl
  · have h4 : c ∈ l.map Char.toLower := mem_pySplit hw hcw
    rw [List.mem_map] at h4
    obtain ⟨c0, _, hc0⟩ := h4
    rw [← hc0]
    exact toLower_toLower c0

/-- The sanitizer pattern is idempotent whenever its character filter
rejects whitespace. -/
theorem sanitizeCore_idem (keep : Char → Bool)
    (hsp : ∀ c, keep c = true → pyIsSpace c = false) (l : List Char) :
    sanitizeCore keep (sanitizeCore keep l) = sanitizeCore keep l := by
  have hprops : ∀ c ∈ sanitizeCore keep l, keep c = true ∧ Char.toLower c = c :=
    fun c hc => sanitizeCore_mem_props keep l c hc
  have hmap : (sanitizeCore keep l).map Char.toLower = sanitizeCore keep l := by
    rw [List.map_congr_left (g := id) (fun a ha => (hprops a ha).2), List.map_id]
  have hnospace : ∀ c ∈ sanitizeCore keep l, pyIsSpace c = false :=
    fun c hc => hsp c (hprops c hc).1
  by_cases hnil : sanitizeCore keep l = []
  · rw [hnil]
    rfl
  · conv_lhs => rw [sanitizeCore]
    rw [hmap, pySplit_no_space _ hnospace, if_neg hnil, intercalate_single,
      List.filter_eq_self.mpr (fun a ha => (hprops a ha).1)]
    exact stripChar_stripChar '-' _

/-- C7: The rename endpoint's sanitization function is idempotent: for
every input string x, sanitize(sanitize(x)) equals sanitize(x). -/
theorem c7_sanitize_idempotent (x : String) :
    sanitizeRename (sanitizeRename x) = sanitizeRename x :=
  congrArg String.mk (sanitizeCore_idem keepRename keepRename_not_space x.data)

end NeuraX
